import Mathlib

/-!
Shallow embedding of the task/project data-management layer of the repository
(`storage.py` and `task_manager.py`).

The SQLite database is modelled as an in-memory `Store`: a list of project
rows and a list of task rows, together with the next auto-increment ids and a
logical clock supplying the `created_at` and `updated_at` timestamps (each
write happens at a fresh, strictly larger time, so `ORDER BY created_at DESC`
is a well-defined sort).  Python numbers that may be `int` or `float` are
modelled by `PyNum` (the `float` payload is an exact rational).  File I/O is
abstracted away: export produces an `ExportDoc` value and import consumes one,
exactly the JSON document `export_to_json` writes and `import_from_json`
reads.
-/

/-- A Python number: either an `int` or a `float` (modelled exactly). -/
inductive PyNum where
  | pint : Int → PyNum
  | pfloat : Rat → PyNum
deriving DecidableEq, Repr

/-- Numeric value of a `PyNum`, as used in comparisons like `0 <= progress`. -/
def PyNum.val : PyNum → Rat
  | .pint n => (n : Rat)
  | .pfloat q => q

/-- Models `isinstance(x, int)`. -/
def PyNum.isInt : PyNum → Bool
  | .pint _ => true
  | .pfloat _ => false

/-- A row of the `projects` table. -/
structure ProjectRow where
  id : Int
  name : String
  description : String
  color : String
  created_at : Nat
  updated_at : Nat
deriving DecidableEq, Repr

/-- A row of the `tasks` table. -/
structure TaskRow where
  id : Int
  project_id : Int
  name : String
  due_date : Option String
  priority : String
  status : String
  progress : PyNum
  assignee : Option String
  created_at : Nat
  updated_at : Nat
deriving DecidableEq, Repr

/-- The database state: both tables, the auto-increment counters and the
logical clock used for timestamps. -/
structure Store where
  projects : List ProjectRow
  tasks : List TaskRow
  next_project_id : Int
  next_task_id : Int
  clock : Nat
deriving DecidableEq, Repr

/-- A freshly initialised database (`_init_database` on a new file). -/
def emptyStore : Store :=
  { projects := [], tasks := [], next_project_id := 1, next_task_id := 1, clock := 0 }

/-! ### A stable insertion sort on a boolean "less or equal" test

`ORDER BY <key> DESC/ASC` and Python's stable `list.sort(key=...)` are both
modelled by this sort: an element is inserted in front of the first element it
compares `le` to, which preserves the original order of elements with equal
keys (stability), matching Python's sort. -/

/-- Insert `a` before the first element `b` of the list with `le a b`. -/
def insertLe (le : α → α → Bool) (a : α) : List α → List α
  | [] => [a]
  | b :: l => if le a b then a :: b :: l else b :: insertLe le a l

/-- Stable insertion sort on a boolean comparison. -/
def sortLe (le : α → α → Bool) : List α → List α
  | [] => []
  | a :: l => insertLe le a (sortLe le l)

/-! ### Python / SQLite string primitives

`str.strip()` and Python string comparison are modelled structurally on the
character list so that they evaluate by kernel reduction. -/

/-- Python `str.isspace` characters stripped by `str.strip()` (ASCII part). -/
def pyIsSpace (c : Char) : Bool :=
  c = ' ' || c = '\t' || c = '\n' || c = '\r' || c = '\x0b' || c = '\x0c'

/-- Python `str.strip()`: drop whitespace at both ends. -/
def pyStrip (s : String) : String :=
  ⟨((s.data.dropWhile pyIsSpace).reverse.dropWhile pyIsSpace).reverse⟩

/-- Lexicographic comparison of code-point lists (Python `<=` on `str`). -/
def charListLe : List Char → List Char → Bool
  | [], _ => true
  | _ :: _, [] => false
  | a :: as, b :: bs => if a = b then charListLe as bs else decide (a < b)

/-- Python string `<=`. -/
def strLe (a b : String) : Bool :=
  charListLe a.data b.data

/-- SQLite folds ASCII upper-case letters for `LIKE`. -/
def sqliteFold (c : Char) : Char :=
  if 'A' ≤ c ∧ c ≤ 'Z' then Char.ofNat (c.toNat + 32) else c

/-- SQLite `LIKE` pattern matching: `%` matches any sequence (some suffix of
the text continues the match), `_` any single character, other characters
match up to ASCII case folding. -/
def likeMatch : List Char → List Char → Bool
  | [], s => s.isEmpty
  | '%' :: ps, s => s.tails.any fun t => likeMatch ps t
  | '_' :: ps, s =>
    match s with
    | [] => false
    | _ :: ss => likeMatch ps ss
  | a :: ps, s =>
    match s with
    | [] => false
    | c :: ss => (sqliteFold a = sqliteFold c) && likeMatch ps ss

/-- The condition `name LIKE ?` with parameter `%keyword%`. -/
def likeContains (keyword name : String) : Bool :=
  likeMatch ('%' :: (keyword.data ++ ['%'])) name.data

/-- Python truthiness of an optional string (`None` and `""` are falsy). -/
def truthy : Option String → Bool
  | none => false
  | some s => !(s = "")

/-! ### The Record Store (`storage.py`) -/

/-- Partial update for `Storage.update_project` (whitelist
`{name, description, color}`; a `none` field is not in the field map). -/
structure ProjectPatch where
  name : Option String := none
  description : Option String := none
  color : Option String := none
deriving DecidableEq, Repr

/-- Partial update for `Storage.update_task` (whitelist
`{name, due_date, priority, status, progress, assignee}`).  The inner
`Option` of `due_date` and `assignee` is the nullable column value. -/
structure TaskPatch where
  name : Option String := none
  due_date : Option (Option String) := none
  priority : Option String := none
  status : Option String := none
  progress : Option PyNum := none
  assignee : Option (Option String) := none
deriving DecidableEq, Repr

/-- `ProjectPatch` with no field present (empty field map). -/
def ProjectPatch.isEmpty (p : ProjectPatch) : Bool :=
  p.name.isNone && p.description.isNone && p.color.isNone

/-- `TaskPatch` with no field present (empty field map). -/
def TaskPatch.isEmpty (p : TaskPatch) : Bool :=
  p.name.isNone && p.due_date.isNone && p.priority.isNone && p.status.isNone &&
    p.progress.isNone && p.assignee.isNone

/-- Apply a project field map to a row, stamping `updated_at`. -/
def applyProjectPatch (p : ProjectPatch) (now : Nat) (r : ProjectRow) : ProjectRow :=
  { r with
    name := p.name.getD r.name
    description := p.description.getD r.description
    color := p.color.getD r.color
    updated_at := now }

/-- Apply a task field map to a row, stamping `updated_at`. -/
def applyTaskPatch (p : TaskPatch) (now : Nat) (r : TaskRow) : TaskRow :=
  { r with
    name := p.name.getD r.name
    due_date := p.due_date.getD r.due_date
    priority := p.priority.getD r.priority
    status := p.status.getD r.status
    progress := p.progress.getD r.progress
    assignee := p.assignee.getD r.assignee
    updated_at := now }

/-- `ORDER BY created_at DESC` for tasks. -/
def taskCreatedDesc (a b : TaskRow) : Bool :=
  decide (b.created_at ≤ a.created_at)

/-- `ORDER BY created_at DESC` for projects. -/
def projectCreatedDesc (a b : ProjectRow) : Bool :=
  decide (b.created_at ≤ a.created_at)

namespace Storage

/-- `Storage.create_project`: INSERT and return the new row id. -/
def create_project (s : Store) (name : String) (description : String := "")
    (color : String := "#3B82F6") : Int × Store :=
  let pid := s.next_project_id
  (pid,
    { s with
      projects := s.projects ++
        [{ id := pid, name := name, description := description, color := color,
           created_at := s.clock, updated_at := s.clock }]
      next_project_id := pid + 1
      clock := s.clock + 1 })

/-- `Storage.get_project`: SELECT by id. -/
def get_project (s : Store) (project_id : Int) : Option ProjectRow :=
  s.projects.find? fun r => r.id == project_id

/-- `Storage.get_all_projects`: SELECT ordered by creation time descending. -/
def get_all_projects (s : Store) : List ProjectRow :=
  sortLe projectCreatedDesc s.projects

/-- `Storage.update_project`: write whitelisted fields of the field map,
stamp `updated_at`, report whether a row matched. -/
def update_project (s : Store) (project_id : Int) (p : ProjectPatch) : Bool × Store :=
  if p.isEmpty then
    (false, s)
  else
    (decide (0 < s.projects.countP fun r => r.id == project_id),
      { s with
        projects := s.projects.map fun r =>
          if r.id == project_id then applyProjectPatch p s.clock r else r
        clock := s.clock + 1 })

/-- `Storage.delete_project`: delete the project's tasks, then the project
row; report whether the project row was removed. -/
def delete_project (s : Store) (project_id : Int) : Bool × Store :=
  (decide (0 < s.projects.countP fun r => r.id == project_id),
    { s with
      tasks := s.tasks.filter fun t => !(t.project_id == project_id)
      projects := s.projects.filter fun r => !(r.id == project_id)
      clock := s.clock + 1 })

/-- `Storage.create_task`: INSERT and return the new row id (no checks). -/
def create_task (s : Store) (project_id : Int) (name : String)
    (due_date : Option String := none) (priority : String := "中")
    (status : String := "やること") (progress : PyNum := .pint 0)
    (assignee : Option String := none) : Int × Store :=
  let tid := s.next_task_id
  (tid,
    { s with
      tasks := s.tasks ++
        [{ id := tid, project_id := project_id, name := name, due_date := due_date,
           priority := priority, status := status, progress := progress,
           assignee := assignee, created_at := s.clock, updated_at := s.clock }]
      next_task_id := tid + 1
      clock := s.clock + 1 })

/-- `Storage.get_task`: SELECT by id. -/
def get_task (s : Store) (task_id : Int) : Option TaskRow :=
  s.tasks.find? fun t => t.id == task_id

/-- `Storage.get_tasks_by_project`: the project's tasks, creation time
descending. -/
def get_tasks_by_project (s : Store) (project_id : Int) : List TaskRow :=
  sortLe taskCreatedDesc (s.tasks.filter fun t => t.project_id == project_id)

/-- `Storage.get_tasks_by_status`. -/
def get_tasks_by_status (s : Store) (project_id : Int) (status : String) : List TaskRow :=
  sortLe taskCreatedDesc
    (s.tasks.filter fun t => t.project_id == project_id && t.status == status)

/-- `Storage.update_task`: task analogue of `update_project`. -/
def update_task (s : Store) (task_id : Int) (p : TaskPatch) : Bool × Store :=
  if p.isEmpty then
    (false, s)
  else
    (decide (0 < s.tasks.countP fun t => t.id == task_id),
      { s with
        tasks := s.tasks.map fun t =>
          if t.id == task_id then applyTaskPatch p s.clock t else t
        clock := s.clock + 1 })

/-- `Storage.delete_task`. -/
def delete_task (s : Store) (task_id : Int) : Bool × Store :=
  (decide (0 < s.tasks.countP fun t => t.id == task_id),
    { s with
      tasks := s.tasks.filter fun t => !(t.id == task_id)
      clock := s.clock + 1 })

/-- The WHERE clause built by `Storage.search_tasks`: the `project_id` match
plus one conjunct per truthy filter (`if keyword: ...` etc.; `None` and the
empty string are both falsy and hence ignored).  A NULL `assignee` column
never satisfies `assignee = ?`. -/
def searchCond (project_id : Int) (keyword status assignee priority : Option String)
    (t : TaskRow) : Bool :=
  t.project_id == project_id
    && (if truthy keyword then likeContains (keyword.getD "") t.name else true)
    && (if truthy status then t.status == status.getD "" else true)
    && (if truthy assignee then
          match t.assignee with
          | none => false
          | some a => a == assignee.getD ""
        else true)
    && (if truthy priority then t.priority == priority.getD "" else true)

/-- `Storage.search_tasks`: ANDed filters, ordered by creation time
descending. -/
def search_tasks (s : Store) (project_id : Int) (keyword : Option String := none)
    (status : Option String := none) (assignee : Option String := none)
    (priority : Option String := none) : List TaskRow :=
  sortLe taskCreatedDesc
    (s.tasks.filter (searchCond project_id keyword status assignee priority))

/-- The JSON document written by `export_to_json` and read by
`import_from_json` (file I/O abstracted away). -/
structure ExportDoc where
  projects : List ProjectRow
  tasks : List TaskRow
deriving DecidableEq, Repr

/-- `Storage.export_to_json`: all projects (creation time descending) and,
for each project in that order, its tasks. -/
def exportDoc (s : Store) : ExportDoc :=
  let projs := get_all_projects s
  { projects := projs
    tasks := projs.foldl (fun acc p => acc ++ get_tasks_by_project s p.id) [] }

/-- First pass of `import_from_json`: re-create each project (dropping id and
timestamps), recording `old id → new id` when the old id is truthy. -/
def importProjects (acc : Store × List (Int × Int)) (ps : List ProjectRow) :
    Store × List (Int × Int) :=
  ps.foldl
    (fun acc p =>
      let r := create_project acc.1 p.name p.description p.color
      (r.2, if p.id ≠ 0 then (p.id, r.1) :: acc.2 else acc.2))
    acc

/-- Second pass of `import_from_json`: re-create each task whose original
`project_id` is in the map, remapping it; other tasks are dropped. -/
def importTasks (s : Store) (idMap : List (Int × Int)) (ts : List TaskRow) : Store :=
  ts.foldl
    (fun acc t =>
      match idMap.lookup t.project_id with
      | some new_pid =>
        (create_task acc new_pid t.name t.due_date t.priority t.status t.progress
          t.assignee).2
      | none => acc)
    s

/-- `Storage.import_from_json` on a successfully parsed document. -/
def importDoc (s : Store) (doc : ExportDoc) : Store :=
  let r := importProjects (s, []) doc.projects
  importTasks r.1 r.2 doc.tasks

end Storage

/-! ### The Domain Manager (`task_manager.py`) -/

namespace TaskManager

/-- `TaskManager.STATUSES` (todo, in progress, review, done). -/
def STATUSES : List String := ["やること", "進行中", "レビュー", "完了"]

/-- `TaskManager.PRIORITIES` (low, medium, high). -/
def PRIORITIES : List String := ["低", "中", "高"]

/-- `TaskManager.DEFAULT_COLORS`: the fixed 6-entry palette. -/
def DEFAULT_COLORS : List String :=
  ["#3B82F6", "#10B981", "#F59E0B", "#EF4444", "#8B5CF6", "#EC4899"]

/-- `TaskManager.create_project`: reject an empty (after strip) name, pick
the palette color from the current project count when `color` is `None`,
then delegate to the store with stripped name and description. -/
def create_project (s : Store) (name : String) (description : String := "")
    (color : Option String := none) : Except String Int × Store :=
  if pyStrip name = "" then
    (.error "Project name cannot be empty", s)
  else
    let c :=
      match color with
      | none => DEFAULT_COLORS.getD ((Storage.get_all_projects s).length % DEFAULT_COLORS.length) ""
      | some c => c
    let r := Storage.create_project s (pyStrip name) (pyStrip description) c
    (.ok r.1, r.2)

/-- `TaskManager.get_project`. -/
def get_project (s : Store) (project_id : Int) : Option ProjectRow :=
  Storage.get_project s project_id

/-- `TaskManager.get_all_projects`. -/
def get_all_projects (s : Store) : List ProjectRow :=
  Storage.get_all_projects s

/-- `TaskManager.update_project`: no validation, delegate to the store. -/
def update_project (s : Store) (project_id : Int) (p : ProjectPatch) : Bool × Store :=
  Storage.update_project s project_id p

/-- `TaskManager.delete_project`: delegate to the store. -/
def delete_project (s : Store) (project_id : Int) : Bool × Store :=
  Storage.delete_project s project_id

/-- `TaskManager.create_task`: the four field validations, then the
project-existence check, then (and only then) the storage write. -/
def create_task (s : Store) (project_id : Int) (name : String)
    (due_date : Option String := none) (priority : String := "中")
    (status : String := "やること") (progress : PyNum := .pint 0)
    (assignee : Option String := none) : Except String Int × Store :=
  if pyStrip name = "" then
    (.error "Task name cannot be empty", s)
  else if priority ∉ PRIORITIES then
    (.error "Invalid priority", s)
  else if status ∉ STATUSES then
    (.error "Invalid status", s)
  else if ¬(0 ≤ progress.val ∧ progress.val ≤ 100) then
    (.error "Progress must be between 0 and 100", s)
  else
    match get_project s project_id with
    | none => (.error "Project does not exist", s)
    | some _ =>
      let r := Storage.create_task s project_id (pyStrip name) due_date priority status
        progress assignee
      (.ok r.1, r.2)

/-- `TaskManager.get_task`. -/
def get_task (s : Store) (task_id : Int) : Option TaskRow :=
  Storage.get_task s task_id

/-- `TaskManager.get_tasks_by_project`. -/
def get_tasks_by_project (s : Store) (project_id : Int) : List TaskRow :=
  Storage.get_tasks_by_project s project_id

/-- `TaskManager.get_tasks_by_status`: status-membership validation, then
delegate. -/
def get_tasks_by_status (s : Store) (project_id : Int) (status : String) :
    Except String (List TaskRow) :=
  if status ∉ STATUSES then
    .error "Invalid status"
  else
    .ok (Storage.get_tasks_by_status s project_id status)

/-- `TaskManager.update_task`: validate only the fields present in the field
map (priority and status membership; progress integral type and range), then
delegate to the store. -/
def update_task (s : Store) (task_id : Int) (p : TaskPatch) : Except String Bool × Store :=
  if p.priority.any (fun v => decide (v ∉ PRIORITIES)) then
    (.error "Invalid priority", s)
  else if p.status.any (fun v => decide (v ∉ STATUSES)) then
    (.error "Invalid status", s)
  else if p.progress.any
      (fun v => !(v.isInt && decide (0 ≤ v.val) && decide (v.val ≤ 100))) then
    (.error "Progress must be an integer between 0 and 100", s)
  else
    let r := Storage.update_task s task_id p
    (.ok r.1, r.2)

/-- `TaskManager.update_task_status`: convenience wrapper. -/
def update_task_status (s : Store) (task_id : Int) (status : String) :
    Except String Bool × Store :=
  update_task s task_id { status := some status }

/-- `TaskManager.update_task_progress`: convenience wrapper. -/
def update_task_progress (s : Store) (task_id : Int) (progress : PyNum) :
    Except String Bool × Store :=
  update_task s task_id { progress := some progress }

/-- `TaskManager.delete_task`: delegate to the store. -/
def delete_task (s : Store) (task_id : Int) : Bool × Store :=
  Storage.delete_task s task_id

/-- `TaskManager.search_tasks`: pass-through to the store. -/
def search_tasks (s : Store) (project_id : Int) (keyword : Option String := none)
    (status : Option String := none) (assignee : Option String := none)
    (priority : Option String := none) : List TaskRow :=
  Storage.search_tasks s project_id keyword status assignee priority

/-- The priority sort key: `{"高": 0, "中": 1, "低": 2}.get(p, 1)`. -/
def priorityRank (p : String) : Nat :=
  ([("高", 0), ("中", 1), ("低", 2)].lookup p).getD 1

/-- The status sort key: index in `STATUSES`, unknown status mapped to 0. -/
def statusRank (st : String) : Nat :=
  (STATUSES.indexOf? st).getD 0

/-- The due-date sort key: `t["due_date"] or "9999-12-31"` (`None` and `""`
are falsy and become the far-future sentinel). -/
def dueKey (t : TaskRow) : String :=
  match t.due_date with
  | none => "9999-12-31"
  | some d => if d = "" then "9999-12-31" else d

/-- `TaskManager.get_tasks_sorted`: load the project's tasks, then one of
four stable key sorts, or the unsorted list on an unrecognized key. -/
def get_tasks_sorted (s : Store) (project_id : Int) (sort_by : String := "priority") :
    List TaskRow :=
  let tasks := get_tasks_by_project s project_id
  if sort_by = "priority" then
    sortLe (fun a b => decide (priorityRank a.priority ≤ priorityRank b.priority)) tasks
  else if sort_by = "due_date" then
    sortLe (fun a b => charListLe (dueKey a).data (dueKey b).data) tasks
  else if sort_by = "status" then
    sortLe (fun a b => decide (statusRank a.status ≤ statusRank b.status)) tasks
  else if sort_by = "name" then
    sortLe (fun a b => charListLe a.name.data b.name.data) tasks
  else
    tasks

/-- `TaskManager.export_backup` / `import_backup` delegate to the store;
only the state effect of import is modelled (export does not change state). -/
def import_backup (s : Store) (doc : Storage.ExportDoc) : Store :=
  Storage.importDoc s doc

/-- The result of `TaskManager.get_project_stats`. -/
structure Stats where
  total : Nat
  by_status : List (String × Nat)
  by_priority : List (String × Nat)
  avg_progress : Rat
deriving DecidableEq, Repr

/-- `TaskManager.get_project_stats`: total, per-status and per-priority
counts (`sum(1 for t in tasks if ...)`), and the mean progress guarded
against division by zero. -/
def get_project_stats (s : Store) (project_id : Int) : Stats :=
  let tasks := get_tasks_by_project s project_id
  { total := tasks.length
    by_status := STATUSES.map fun st => (st, tasks.countP fun t => t.status == st)
    by_priority := PRIORITIES.map fun pr => (pr, tasks.countP fun t => t.priority == pr)
    avg_progress :=
      if tasks.isEmpty then 0
      else (tasks.map fun t => t.progress.val).sum / (tasks.length : Rat) }

end TaskManager

/-! ### Reachability through the Manager's public operations -/

/-- One state-changing call to a public `TaskManager` operation (read-only
operations and `export_backup` do not change the store). -/
inductive MStep : Store → Store → Prop where
  | create_project (s : Store) (name description : String) (color : Option String) :
      MStep s (TaskManager.create_project s name description color).2
  | update_project (s : Store) (project_id : Int) (p : ProjectPatch) :
      MStep s (TaskManager.update_project s project_id p).2
  | delete_project (s : Store) (project_id : Int) :
      MStep s (TaskManager.delete_project s project_id).2
  | create_task (s : Store) (project_id : Int) (name : String)
      (due_date : Option String) (priority status : String) (progress : PyNum)
      (assignee : Option String) :
      MStep s (TaskManager.create_task s project_id name due_date priority status
        progress assignee).2
  | update_task (s : Store) (task_id : Int) (p : TaskPatch) :
      MStep s (TaskManager.update_task s task_id p).2
  | update_task_status (s : Store) (task_id : Int) (status : String) :
      MStep s (TaskManager.update_task_status s task_id status).2
  | update_task_progress (s : Store) (task_id : Int) (progress : PyNum) :
      MStep s (TaskManager.update_task_progress s task_id progress).2
  | delete_task (s : Store) (task_id : Int) :
      MStep s (TaskManager.delete_task s task_id).2
  | import_backup (s : Store) (doc : Storage.ExportDoc) :
      MStep s (TaskManager.import_backup s doc)

/-- States reachable from a fresh database through the Manager's public
operations. -/
def Reachable (s : Store) : Prop :=
  Relation.ReflTransGen MStep emptyStore s

/-- The state-changing Manager operations other than `update_project` and
`import_backup` (used to delimit which operations can break the non-empty
project-name invariant). -/
inductive MStepSafe : Store → Store → Prop where
  | create_project (s : Store) (name description : String) (color : Option String) :
      MStepSafe s (TaskManager.create_project s name description color).2
  | delete_project (s : Store) (project_id : Int) :
      MStepSafe s (TaskManager.delete_project s project_id).2
  | create_task (s : Store) (project_id : Int) (name : String)
      (due_date : Option String) (priority status : String) (progress : PyNum)
      (assignee : Option String) :
      MStepSafe s (TaskManager.create_task s project_id name due_date priority status
        progress assignee).2
  | update_task (s : Store) (task_id : Int) (p : TaskPatch) :
      MStepSafe s (TaskManager.update_task s task_id p).2
  | update_task_status (s : Store) (task_id : Int) (status : String) :
      MStepSafe s (TaskManager.update_task_status s task_id status).2
  | update_task_progress (s : Store) (task_id : Int) (progress : PyNum) :
      MStepSafe s (TaskManager.update_task_progress s task_id progress).2
  | delete_task (s : Store) (task_id : Int) :
      MStepSafe s (TaskManager.delete_task s task_id).2

/-- Reachability avoiding `update_project` and `import_backup`. -/
def ReachableSafe (s : Store) : Prop :=
  Relation.ReflTransGen MStepSafe emptyStore s

/-! ### Helper definitions used by the verification -/

/-- Whether an `Except` result is a raised error. -/
def isError : Except ε α → Bool
  | .error _ => true
  | .ok _ => false

/-- A store holding one project (id 1), built through the Manager. -/
def demoStore1 : Store :=
  (TaskManager.create_project emptyStore "P" "" none).2

/-- A store with one project (id 1) and one task (id 1) named "abc". -/
def demoStore2 : Store :=
  (TaskManager.create_task demoStore1 1 "abc" none "中" "やること" (.pint 0) none).2

/-- One project; task 1 has due date `9999-12-31` (the sentinel itself), the
later task 2 has no due date. -/
def c5Store : Store :=
  (TaskManager.create_task
    (TaskManager.create_task demoStore1 1 "t1" (some "9999-12-31") "中" "やること"
      (.pint 0) none).2
    1 "t2" none "中" "やること" (.pint 0) none).2

/-- One project; task 1 has no due date, the later task 2 is due
`2020-01-01`. -/
def c5bStore : Store :=
  (TaskManager.create_task
    (TaskManager.create_task demoStore1 1 "t1" none "中" "やること" (.pint 0) none).2
    1 "t2" (some "2020-01-01") "中" "やること" (.pint 0) none).2

/-- Referential integrity: every task's `project_id` is the id of an
existing project. -/
def RefInt (s : Store) : Prop :=
  ∀ t ∈ s.tasks, ∃ p ∈ s.projects, p.id = t.project_id

/-- All project names are non-empty. -/
def NamesOk (s : Store) : Prop :=
  ∀ p ∈ s.projects, p.name ≠ ""

/-- The task fields preserved by the backup round trip (everything except
id, `project_id` and timestamps). -/
def taskFields (t : TaskRow) :
    String × Option String × String × String × PyNum × Option String :=
  (t.name, t.due_date, t.priority, t.status, t.progress, t.assignee)

/-! ### General helper lemmas -/

theorem perm_insertLe (le : α → α → Bool) (a : α) (l : List α) :
    List.Perm (insertLe le a l) (a :: l) := by
  induction l with
  | nil => simp [insertLe]
  | cons b l ih =>
    simp only [insertLe]
    by_cases h : le a b = true
    · rw [if_pos h]
    · rw [if_neg h]
      exact List.Perm.trans (ih.cons b) (List.Perm.swap a b l)

theorem perm_sortLe (le : α → α → Bool) (l : List α) : List.Perm (sortLe le l) l := by
  induction l with
  | nil => simp [sortLe]
  | cons a l ih =>
    exact List.Perm.trans (perm_insertLe le a (sortLe le l)) (ih.cons a)

theorem mem_sortLe (le : α → α → Bool) (l : List α) (x : α) :
    x ∈ sortLe le l ↔ x ∈ l :=
  (perm_sortLe le l).mem_iff

theorem length_sortLe (le : α → α → Bool) (l : List α) :
    (sortLe le l).length = l.length :=
  (perm_sortLe le l).length_eq

theorem pairwise_insertLe (le : α → α → Bool)
    (htot : ∀ a b, le a b = true ∨ le b a = true)
    (htrans : ∀ a b c, le a b = true → le b c = true → le a c = true)
    (a : α) (l : List α)
    (h : l.Pairwise fun x y => le x y = true) :
    (insertLe le a l).Pairwise fun x y => le x y = true := by
  induction l with
  | nil => simp [insertLe]
  | cons b l ih =>
    obtain ⟨hb, hl⟩ := List.pairwise_cons.mp h
    simp only [insertLe]
    by_cases hab : le a b = true
    · rw [if_pos hab]
      refine List.pairwise_cons.mpr ⟨?_, h⟩
      intro x hx
      rw [List.mem_cons] at hx
      rcases hx with rfl | hx
      · exact hab
      · exact htrans a b x hab (hb x hx)
    · rw [if_neg hab]
      refine List.pairwise_cons.mpr ⟨?_, ih hl⟩
      intro x hx
      rw [(perm_insertLe le a l).mem_iff, List.mem_cons] at hx
      rcases hx with rfl | hx
      · rcases htot x b with h1 | h1
        · exact absurd h1 hab
        · exact h1
      · exact hb x hx

theorem pairwise_sortLe (le : α → α → Bool)
    (htot : ∀ a b, le a b = true ∨ le b a = true)
    (htrans : ∀ a b c, le a b = true → le b c = true → le a c = true)
    (l : List α) :
    (sortLe le l).Pairwise fun x y => le x y = true := by
  induction l with
  | nil => simp [sortLe]
  | cons a l ih => exact pairwise_insertLe le htot htrans a (sortLe le l) ih


theorem isError_error (e : ε) : isError (α := α) (.error e) = true := rfl

theorem isError_ok (a : α) : isError (ε := ε) (.ok a) = false := rfl

/-- Looking a key up in an association list of the form
`l.map fun x => (x, f x)` yields `f k` for any `k ∈ l`. -/
theorem lookup_map_self [BEq α] [LawfulBEq α] (l : List α) (f : α → β) (k : α)
    (hk : k ∈ l) : (l.map fun x => (x, f x)).lookup k = some (f k) := by
  induction l with
  | nil => cases hk
  | cons a l ih =>
    rw [List.mem_cons] at hk
    simp only [List.map_cons, List.lookup]
    by_cases h : k == a
    · rw [h, eq_of_beq h]
    · rw [Bool.not_eq_true] at h
      rw [h]
      rcases hk with rfl | hk
      · simp at h
      · exact ih hk

/-- Mapping `Prod.fst` over `l.map fun x => (x, f x)` gives back `l`. -/
theorem map_fst_map_pair (l : List α) (f : α → β) :
    (l.map fun x => (x, f x)).map Prod.fst = l := by
  induction l with
  | nil => rfl
  | cons a l ih => simp [ih]

theorem charListLe_refl (l : List Char) : charListLe l l = true := by
  induction l with
  | nil => rfl
  | cons a l ih => simpa [charListLe] using ih

theorem charListLe_total (a b : List Char) :
    charListLe a b = true ∨ charListLe b a = true := by
  induction a generalizing b with
  | nil => left; rfl
  | cons x xs ih =>
    match b with
    | [] => right; rfl
    | y :: ys =>
      by_cases hxy : x = y
      · subst hxy
        simpa [charListLe] using ih ys
      · rcases lt_trichotomy x y with h | h | h
        · left; simp [charListLe, hxy, h]
        · exact absurd h hxy
        · right
          simp [charListLe, Ne.symm hxy, h, not_lt_of_lt h]

theorem charListLe_trans (a b c : List Char) (hab : charListLe a b = true)
    (hbc : charListLe b c = true) : charListLe a c = true := by
  induction a generalizing b c with
  | nil => rfl
  | cons x xs ih =>
    match b, c with
    | [], _ => simp [charListLe] at hab
    | _ :: _, [] => simp [charListLe] at hbc
    | y :: ys, z :: zs =>
      by_cases hxy : x = y <;> by_cases hyz : y = z
      · subst hxy; subst hyz
        simp only [charListLe, if_pos rfl] at hab hbc ⊢
        exact ih ys zs hab hbc
      · subst hxy
        simp only [charListLe, if_pos rfl] at hab
        simpa [charListLe, hyz] using hbc
      · subst hyz
        simp only [charListLe, if_pos rfl] at hbc
        simpa [charListLe, hxy] using hab
      · simp only [charListLe, if_neg hxy] at hab
        simp only [charListLe, if_neg hyz] at hbc
        rw [decide_eq_true_iff] at hab hbc
        have hxz : x < z := lt_trans hab hbc
        simp [charListLe, ne_of_lt hxz, hxz]

/-! ### Claim C8: default color rotation in `create_project` -/

/-- C8: when `create_project` is called with the color omitted, the created
project is assigned the palette entry at index (current number of existing
projects) mod 6 of the fixed 6-entry palette. -/
theorem c8_default_color_rotation (s : Store) (name description : String)
    (h : pyStrip name ≠ "") :
    ∃ r : ProjectRow,
      (TaskManager.create_project s name description none).2.projects
          = s.projects ++ [r] ∧
      r.color = TaskManager.DEFAULT_COLORS.getD (s.projects.length % 6) "" ∧
      (TaskManager.create_project s name description none).1 = .ok r.id := by
  unfold TaskManager.create_project
  rw [if_neg h]
  refine ⟨_, rfl, ?_, rfl⟩
  show TaskManager.DEFAULT_COLORS.getD
      ((Storage.get_all_projects s).length % TaskManager.DEFAULT_COLORS.length) ""
    = TaskManager.DEFAULT_COLORS.getD (s.projects.length % 6) ""
  rw [Storage.get_all_projects, length_sortLe]
  rfl

/-- C8 witness: the first project created into an empty store gets
`palette[0]`, and the second gets `palette[1]`. -/
theorem c8_default_color_rotation_witness :
    (∃ r : ProjectRow,
      (TaskManager.create_project emptyStore "P" "" none).2.projects
          = emptyStore.projects ++ [r] ∧
      r.color = TaskManager.DEFAULT_COLORS.getD (emptyStore.projects.length % 6) "" ∧
      (TaskManager.create_project emptyStore "P" "" none).1 = .ok r.id) ∧
    (∃ r : ProjectRow,
      (TaskManager.create_project demoStore1 "Q" "" none).2.projects
          = demoStore1.projects ++ [r] ∧
      r.color = TaskManager.DEFAULT_COLORS.getD (demoStore1.projects.length % 6) "" ∧
      (TaskManager.create_project demoStore1 "Q" "" none).1 = .ok r.id) ∧
    TaskManager.DEFAULT_COLORS.getD (emptyStore.projects.length % 6) "" = "#3B82F6" ∧
    TaskManager.DEFAULT_COLORS.getD (demoStore1.projects.length % 6) "" = "#10B981" :=
  ⟨c8_default_color_rotation emptyStore "P" "" (by decide),
    c8_default_color_rotation demoStore1 "Q" "" (by decide),
    by decide, by decide⟩

/-! ### Claim C4: `create_task` validation -/

/-- C4: `create_task` raises a validation error exactly when the name is
empty after trimming, or the priority or status is outside its enumeration,
or progress is outside [0,100], or the project id does not resolve; and
whenever it raises, the store is unchanged. -/
theorem c4_create_task_validation (s : Store) (project_id : Int) (name : String)
    (due_date : Option String) (priority status : String) (progress : PyNum)
    (assignee : Option String) :
    (isError (TaskManager.create_task s project_id name due_date priority status
        progress assignee).1 = true ↔
      (pyStrip name = "" ∨ priority ∉ TaskManager.PRIORITIES ∨
        status ∉ TaskManager.STATUSES ∨ ¬(0 ≤ progress.val ∧ progress.val ≤ 100) ∨
        TaskManager.get_project s project_id = none)) ∧
    (isError (TaskManager.create_task s project_id name due_date priority status
        progress assignee).1 = true →
      (TaskManager.create_task s project_id name due_date priority status
        progress assignee).2 = s) := by
  unfold TaskManager.create_task
  by_cases h1 : pyStrip name = ""
  · rw [if_pos h1]
    simp [isError, h1]
  rw [if_neg h1]
  by_cases h2 : priority ∉ TaskManager.PRIORITIES
  · rw [if_pos h2]
    simp [isError, h1, h2]
  rw [if_neg h2]
  rw [not_not] at h2
  by_cases h3 : status ∉ TaskManager.STATUSES
  · rw [if_pos h3]
    simp [isError, h1, h2, h3]
  rw [if_neg h3]
  rw [not_not] at h3
  by_cases h4 : 0 ≤ progress.val ∧ progress.val ≤ 100
  · rw [if_neg (not_not_intro h4)]
    cases hp : TaskManager.get_project s project_id with
    | none => simp [isError, h1, h2, h3, h4, hp]
    | some p => simp [isError, h1, h2, h3, h4, hp]
  · rw [if_pos h4]
    simp [isError, h1, h2, h3, h4]

/-- C4 witness: out-of-range progress is rejected on a concrete store with
no write, and the error condition evaluates concretely. -/
theorem c4_create_task_validation_witness :
    isError (TaskManager.create_task demoStore1 1 "T" none "中" "やること"
        (.pint 101) none).1 = true ∧
    (TaskManager.create_task demoStore1 1 "T" none "中" "やること"
        (.pint 101) none).2 = demoStore1 := by
  have h := c4_create_task_validation demoStore1 1 "T" none "中" "やること"
    (.pint 101) none
  have herr : isError (TaskManager.create_task demoStore1 1 "T" none "中" "やること"
      (.pint 101) none).1 = true := by
    apply h.1.mpr
    right; right; right; left
    decide
  exact ⟨herr, h.2 herr⟩

/-! ### Claim C10: `Storage.delete_project` on an id with no project row -/

/-- C10: when no project row has the given id, `Storage.delete_project`
still deletes every task row with that `project_id` and returns `false`;
with such an orphan task present the task table does change. -/
theorem c10_delete_project_false_still_deletes (s : Store) (project_id : Int)
    (hnoproj : ∀ r ∈ s.projects, r.id ≠ project_id) :
    (Storage.delete_project s project_id).1 = false ∧
    (Storage.delete_project s project_id).2.tasks
        = s.tasks.filter (fun t => !(t.project_id == project_id)) ∧
    ((∃ t ∈ s.tasks, t.project_id = project_id) →
      (Storage.delete_project s project_id).2.tasks ≠ s.tasks) := by
  refine ⟨?_, rfl, ?_⟩
  · simp only [Storage.delete_project]
    rw [decide_eq_false_iff_not]
    simp only [not_lt, Nat.le_zero]
    rw [List.countP_eq_zero]
    intro r hr
    simpa using hnoproj r hr
  · rintro ⟨t, ht, htp⟩ heq
    have h2 : (Storage.delete_project s project_id).2.tasks
        = s.tasks.filter (fun t => !(t.project_id == project_id)) := rfl
    rw [h2] at heq
    have hlen := congrArg List.length heq
    have hlt : (s.tasks.filter fun t => !(t.project_id == project_id)).length
        < s.tasks.length :=
      List.length_filter_lt_length_iff_exists.mpr ⟨t, ht, by simp [htp]⟩
    omega

/-- C10 witness: a store holding only an orphan task (created directly
through the Store, which performs no checks). -/
theorem c10_delete_project_false_still_deletes_witness :
    (Storage.delete_project
        (Storage.create_task emptyStore 5 "orphan" none "中" "やること"
          (.pint 0) none).2 5).1 = false ∧
    (Storage.delete_project
        (Storage.create_task emptyStore 5 "orphan" none "中" "やること"
          (.pint 0) none).2 5).2.tasks
      = (Storage.create_task emptyStore 5 "orphan" none "中" "やること"
          (.pint 0) none).2.tasks.filter (fun t => !(t.project_id == 5)) ∧
    ((∃ t ∈ (Storage.create_task emptyStore 5 "orphan" none "中" "やること"
          (.pint 0) none).2.tasks, t.project_id = 5) →
      (Storage.delete_project
          (Storage.create_task emptyStore 5 "orphan" none "中" "やること"
            (.pint 0) none).2 5).2.tasks
        ≠ (Storage.create_task emptyStore 5 "orphan" none "中" "やること"
            (.pint 0) none).2.tasks) :=
  c10_delete_project_false_still_deletes
    (Storage.create_task emptyStore 5 "orphan" none "中" "やること"
      (.pint 0) none).2 5 (by decide)

/-! ### Claim C9: integral-type check on progress exists only on update -/

/-- C9: `create_task` accepts any in-range progress value, including a
non-integer float, and writes it to the store, while `update_task` rejects
every progress value that is not an `int` and leaves the store unchanged. -/
theorem c9_progress_int_check_only_on_update (s : Store) (project_id : Int)
    (name : String) (due_date : Option String) (priority status : String)
    (assignee : Option String) (q : Rat) (task_id : Int) (p : TaskPatch) (v : PyNum)
    (hname : pyStrip name ≠ "") (hpr : priority ∈ TaskManager.PRIORITIES)
    (hst : status ∈ TaskManager.STATUSES) (hq0 : 0 ≤ q) (hq1 : q ≤ 100)
    (hproj : (TaskManager.get_project s project_id).isSome = true)
    (hv : p.progress = some v) (hvint : v.isInt = false) :
    (∃ tid s', TaskManager.create_task s project_id name due_date priority status
        (.pfloat q) assignee = (.ok tid, s') ∧
      ∃ t ∈ s'.tasks, t.id = tid ∧ t.progress = .pfloat q) ∧
    isError (TaskManager.update_task s task_id p).1 = true ∧
    (TaskManager.update_task s task_id p).2 = s := by
  refine ⟨?_, ?_⟩
  · unfold TaskManager.create_task
    rw [if_neg hname, if_neg (not_not_intro hpr), if_neg (not_not_intro hst),
      if_neg (not_not_intro ⟨hq0, hq1⟩)]
    obtain ⟨pr, hpr2⟩ := Option.isSome_iff_exists.mp hproj
    rw [hpr2]
    refine ⟨_, _, rfl, ?_⟩
    simp only [Storage.create_task]
    exact ⟨_, List.mem_append_right _ (List.mem_singleton_self _), rfl, rfl⟩
  · unfold TaskManager.update_task
    by_cases h1 : p.priority.any (fun v => decide (v ∉ TaskManager.PRIORITIES)) = true
    · rw [if_pos h1]
      exact ⟨rfl, rfl⟩
    rw [if_neg h1]
    by_cases h2 : p.status.any (fun v => decide (v ∉ TaskManager.STATUSES)) = true
    · rw [if_pos h2]
      exact ⟨rfl, rfl⟩
    rw [if_neg h2]
    have h3 : p.progress.any
        (fun v => !(v.isInt && decide (0 ≤ v.val) && decide (v.val ≤ 100))) = true := by
      rw [hv]
      simp [Option.any, hvint]
    rw [if_pos h3]
    exact ⟨rfl, rfl⟩

/-- C9 witness: on a concrete store, `create_task` accepts progress `50.5`
and stores it, while `update_task` with progress `50.5` is rejected. -/
theorem c9_progress_int_check_only_on_update_witness :
    (∃ tid s', TaskManager.create_task demoStore1 1 "T" none "中" "やること"
        (.pfloat (mkRat 101 2)) none = (.ok tid, s') ∧
      ∃ t ∈ s'.tasks, t.id = tid ∧ t.progress = .pfloat (mkRat 101 2)) ∧
    isError (TaskManager.update_task demoStore1 1
        { progress := some (.pfloat (mkRat 101 2)) }).1 = true ∧
    (TaskManager.update_task demoStore1 1
        { progress := some (.pfloat (mkRat 101 2)) }).2 = demoStore1 :=
  c9_progress_int_check_only_on_update demoStore1 1 "T" none "中" "やること" none
    (mkRat 101 2) 1 { progress := some (.pfloat (mkRat 101 2)) }
    (.pfloat (mkRat 101 2)) (by decide) (by decide) (by decide) (by decide)
    (by decide) (by decide) rfl (by decide)

/-! ### Claim C7: `get_project_stats` -/

/-- C7: the statistics hold the total task count, per-status counts with all
four statuses present as keys, per-priority counts with all three priorities
present, and the arithmetic mean of progress (0 for a project with no
tasks). -/
theorem c7_project_stats (s : Store) (project_id : Int) :
    (TaskManager.get_project_stats s project_id).total
        = (TaskManager.get_tasks_by_project s project_id).length ∧
    (TaskManager.get_project_stats s project_id).by_status.map Prod.fst
        = TaskManager.STATUSES ∧
    (∀ st ∈ TaskManager.STATUSES,
      (TaskManager.get_project_stats s project_id).by_status.lookup st
        = some ((TaskManager.get_tasks_by_project s project_id).countP
            fun t => t.status == st)) ∧
    (TaskManager.get_project_stats s project_id).by_priority.map Prod.fst
        = TaskManager.PRIORITIES ∧
    (∀ pr ∈ TaskManager.PRIORITIES,
      (TaskManager.get_project_stats s project_id).by_priority.lookup pr
        = some ((TaskManager.get_tasks_by_project s project_id).countP
            fun t => t.priority == pr)) ∧
    (TaskManager.get_tasks_by_project s project_id = [] →
      (TaskManager.get_project_stats s project_id).avg_progress = 0) ∧
    (TaskManager.get_tasks_by_project s project_id ≠ [] →
      (TaskManager.get_project_stats s project_id).avg_progress
          * ((TaskManager.get_tasks_by_project s project_id).length : Rat)
        = ((TaskManager.get_tasks_by_project s project_id).map
            fun t => t.progress.val).sum) := by
  refine ⟨rfl, ?_, ?_, ?_, ?_, ?_, ?_⟩
  · exact map_fst_map_pair TaskManager.STATUSES
      (fun st => (TaskManager.get_tasks_by_project s project_id).countP
        fun t => t.status == st)
  · intro st hst
    exact lookup_map_self TaskManager.STATUSES
      (fun st => (TaskManager.get_tasks_by_project s project_id).countP
        fun t => t.status == st) st hst
  · exact map_fst_map_pair TaskManager.PRIORITIES
      (fun pr => (TaskManager.get_tasks_by_project s project_id).countP
        fun t => t.priority == pr)
  · intro pr hpr
    exact lookup_map_self TaskManager.PRIORITIES
      (fun pr => (TaskManager.get_tasks_by_project s project_id).countP
        fun t => t.priority == pr) pr hpr
  · intro h
    simp [TaskManager.get_project_stats, h]
  · intro h
    have hpos : 0 < (TaskManager.get_tasks_by_project s project_id).length :=
      List.length_pos.mpr h
    have hne : ((TaskManager.get_tasks_by_project s project_id).length : Rat) ≠ 0 :=
      Nat.cast_ne_zero.mpr (Nat.pos_iff_ne_zero.mp hpos)
    have hemp : (TaskManager.get_tasks_by_project s project_id).isEmpty = false := by
      rw [List.isEmpty_eq_false_iff_exists_mem]
      rcases List.exists_mem_of_length_pos hpos with ⟨x, hx⟩
      exact ⟨x, hx⟩
    simp only [TaskManager.get_project_stats, hemp, Bool.false_eq_true, if_false]
    exact div_mul_cancel₀ _ hne

/-- C7 witness: the empty-project scenario evaluated concretely on a store
with one project and no tasks. -/
theorem c7_project_stats_witness :
    (TaskManager.get_project_stats demoStore1 1).total
        = (TaskManager.get_tasks_by_project demoStore1 1).length ∧
    (TaskManager.get_tasks_by_project demoStore1 1 = [] →
      (TaskManager.get_project_stats demoStore1 1).avg_progress = 0) ∧
    (TaskManager.get_project_stats demoStore1 1).total = 0 ∧
    (TaskManager.get_project_stats demoStore1 1).by_status
        = [("やること", 0), ("進行中", 0), ("レビュー", 0), ("完了", 0)] ∧
    (TaskManager.get_project_stats demoStore1 1).by_priority
        = [("低", 0), ("中", 0), ("高", 0)] :=
  ⟨(c7_project_stats demoStore1 1).1, (c7_project_stats demoStore1 1).2.2.2.2.2.1,
    by decide, by decide, by decide⟩

/-- Unfolding of the WHERE clause of `search_tasks` into one condition per
provided filter. -/
theorem searchCond_eq_true_iff (project_id : Int)
    (kw st as pr : Option String) (t : TaskRow) :
    Storage.searchCond project_id kw st as pr t = true ↔
      (t.project_id = project_id ∧
        (truthy kw = true → likeContains (kw.getD "") t.name = true) ∧
        (truthy st = true → t.status = st.getD "") ∧
        (truthy as = true → t.assignee = some (as.getD "")) ∧
        (truthy pr = true → t.priority = pr.getD "")) := by
  unfold Storage.searchCond
  cases ha : t.assignee <;>
    by_cases h1 : truthy kw = true <;> by_cases h2 : truthy st = true <;>
    by_cases h3 : truthy as = true <;> by_cases h4 : truthy pr = true <;>
    simp [ha, h1, h2, h3, h4, Bool.and_eq_true, beq_iff_eq, and_assoc]

/-! ### Claim C1: `search_tasks` -/

/-- C1 counterexample: the keyword filter is not case-sensitive substring
containment; on a task named "abc" the keyword "ABC" matches (SQL LIKE is
ASCII case-insensitive) although "abc" does not contain "ABC". -/
theorem c1_search_tasks_counterexample :
    (Storage.search_tasks demoStore2 1 (some "ABC") none none none).map
        (fun t => t.name) = ["abc"] ∧
    ¬ ("ABC".data <:+: "abc".data) := by decide

/-- C1 (amended): all provided filters are ANDed, the keyword is matched
against the task name with SQL LIKE containment (ASCII case-insensitive,
`%`/`_` acting as wildcards), absent (or empty-string) filters are ignored,
and the result is ordered by creation time descending. -/
theorem c1_search_tasks_filters (s : Store) (project_id : Int)
    (keyword status assignee priority : Option String) :
    (∀ t, t ∈ Storage.search_tasks s project_id keyword status assignee priority ↔
      (t ∈ s.tasks ∧ t.project_id = project_id ∧
        (truthy keyword = true → likeContains (keyword.getD "") t.name = true) ∧
        (truthy status = true → t.status = status.getD "") ∧
        (truthy assignee = true → t.assignee = some (assignee.getD "")) ∧
        (truthy priority = true → t.priority = priority.getD ""))) ∧
    (Storage.search_tasks s project_id keyword status assignee priority).Pairwise
      (fun a b => b.created_at ≤ a.created_at) := by
  constructor
  · intro t
    rw [Storage.search_tasks, mem_sortLe, List.mem_filter, searchCond_eq_true_iff]
  · have hp := pairwise_sortLe taskCreatedDesc
      (fun a b => by
        unfold taskCreatedDesc
        rcases Nat.le_total b.created_at a.created_at with h | h
        · left; exact decide_eq_true h
        · right; exact decide_eq_true h)
      (fun a b c hab hbc => by
        unfold taskCreatedDesc at hab hbc ⊢
        rw [decide_eq_true_iff] at hab hbc ⊢
        exact le_trans hbc hab)
      (s.tasks.filter (Storage.searchCond project_id keyword status assignee priority))
    exact hp.imp fun h => by
      unfold taskCreatedDesc at h
      exact decide_eq_true_iff.mp h

/-- Sorting with a `Nat` key yields a list pairwise ordered by that key. -/
theorem pairwise_sortLe_natKey (k : α → Nat) (l : List α) :
    (sortLe (fun a b => decide (k a ≤ k b)) l).Pairwise fun a b => k a ≤ k b := by
  have hp := pairwise_sortLe (fun a b => decide (k a ≤ k b))
    (fun a b => by
      rcases Nat.le_total (k a) (k b) with h | h
      · left; exact decide_eq_true h
      · right; exact decide_eq_true h)
    (fun a b c hab hbc => by
      rw [decide_eq_true_iff] at hab hbc ⊢
      exact le_trans hab hbc)
    l
  exact hp.imp fun h => decide_eq_true_iff.mp h

/-- Sorting with a string key yields a list pairwise ordered by `charListLe`
on that key. -/
theorem pairwise_sortLe_charKey (k : α → List Char) (l : List α) :
    (sortLe (fun a b => charListLe (k a) (k b)) l).Pairwise
      fun a b => charListLe (k a) (k b) = true :=
  pairwise_sortLe (fun a b => charListLe (k a) (k b))
    (fun a b => charListLe_total (k a) (k b))
    (fun a b c hab hbc => charListLe_trans (k a) (k b) (k c) hab hbc)
    l

/-! ### Claim C5: `get_tasks_sorted` -/

/-- C5 counterexample: under `sort_by="due_date"` a task lacking a due date
is NOT always placed after all tasks that have one: with task 1 due on the
sentinel date `9999-12-31` and task 2 lacking a due date, the sorted order
puts task 2 (no due date) first. -/
theorem c5_get_tasks_sorted_counterexample :
    (TaskManager.get_tasks_sorted c5Store 1 "due_date").map
        (fun t => (t.id, t.due_date))
      = [(2, none), (1, some "9999-12-31")] := by decide

/-- C5 (amended): each recognized `sort_by` returns a permutation of the
project's tasks pairwise ordered by its key — priority rank (high 0, medium
1, low 2, unknown 1), due-date key with absent/empty dates mapped to the
sentinel `9999-12-31` (so a task lacking a due date comes after every task
whose due date is strictly below the sentinel, but not necessarily after one
at or beyond it), status rank (pipeline index, unknown 0), or name — and any
unrecognized `sort_by` returns the creation-order list unchanged. -/
theorem c5_get_tasks_sorted (s : Store) (project_id : Int) :
    ((TaskManager.get_tasks_sorted s project_id "priority").Pairwise
        (fun a b => TaskManager.priorityRank a.priority
          ≤ TaskManager.priorityRank b.priority) ∧
      List.Perm (TaskManager.get_tasks_sorted s project_id "priority")
        (TaskManager.get_tasks_by_project s project_id)) ∧
    ((TaskManager.get_tasks_sorted s project_id "due_date").Pairwise
        (fun a b => charListLe (TaskManager.dueKey a).data
          (TaskManager.dueKey b).data = true) ∧
      List.Perm (TaskManager.get_tasks_sorted s project_id "due_date")
        (TaskManager.get_tasks_by_project s project_id)) ∧
    ((TaskManager.get_tasks_sorted s project_id "status").Pairwise
        (fun a b => TaskManager.statusRank a.status
          ≤ TaskManager.statusRank b.status) ∧
      List.Perm (TaskManager.get_tasks_sorted s project_id "status")
        (TaskManager.get_tasks_by_project s project_id)) ∧
    ((TaskManager.get_tasks_sorted s project_id "name").Pairwise
        (fun a b => charListLe a.name.data b.name.data = true) ∧
      List.Perm (TaskManager.get_tasks_sorted s project_id "name")
        (TaskManager.get_tasks_by_project s project_id)) ∧
    (∀ sort_by, sort_by ∉ ["priority", "due_date", "status", "name"] →
      TaskManager.get_tasks_sorted s project_id sort_by
        = TaskManager.get_tasks_by_project s project_id) ∧
    (∀ (i j : Nat)
      (hi : i < (TaskManager.get_tasks_sorted s project_id "due_date").length)
      (hj : j < (TaskManager.get_tasks_sorted s project_id "due_date").length)
      (d : String),
      (TaskManager.get_tasks_sorted s project_id "due_date")[i].due_date = none →
      (TaskManager.get_tasks_sorted s project_id "due_date")[j].due_date = some d →
      d ≠ "" → charListLe "9999-12-31".data d.data = false → j < i) := by
  refine ⟨⟨?_, ?_⟩, ⟨?_, ?_⟩, ⟨?_, ?_⟩, ⟨?_, ?_⟩, ?_, ?_⟩
  · exact pairwise_sortLe_natKey
      (fun (t : TaskRow) => TaskManager.priorityRank t.priority) _
  · exact perm_sortLe _ _
  · exact pairwise_sortLe_charKey
      (fun (t : TaskRow) => (TaskManager.dueKey t).data) _
  · exact perm_sortLe _ _
  · exact pairwise_sortLe_natKey
      (fun (t : TaskRow) => TaskManager.statusRank t.status) _
  · exact perm_sortLe _ _
  · exact pairwise_sortLe_charKey (fun (t : TaskRow) => t.name.data) _
  · exact perm_sortLe _ _
  · intro sort_by hsb
    have n1 : ¬(sort_by = "priority") := by
      intro h; exact hsb (by rw [h]; decide)
    have n2 : ¬(sort_by = "due_date") := by
      intro h; exact hsb (by rw [h]; decide)
    have n3 : ¬(sort_by = "status") := by
      intro h; exact hsb (by rw [h]; decide)
    have n4 : ¬(sort_by = "name") := by
      intro h; exact hsb (by rw [h]; decide)
    simp only [TaskManager.get_tasks_sorted, if_neg n1, if_neg n2, if_neg n3,
      if_neg n4]
  · intro i j hi hj d hdi hdj hne hlt
    have hpw : (TaskManager.get_tasks_sorted s project_id "due_date").Pairwise
        (fun a b => charListLe (TaskManager.dueKey a).data
          (TaskManager.dueKey b).data = true) :=
      pairwise_sortLe_charKey (fun t => (TaskManager.dueKey t).data) _
    by_contra hcon
    rw [not_lt] at hcon
    rcases Nat.lt_or_ge i j with hij | hij
    · have hle := List.pairwise_iff_getElem.mp hpw i j hi hj hij
      have hki : TaskManager.dueKey
          (TaskManager.get_tasks_sorted s project_id "due_date")[i] = "9999-12-31" := by
        simp [TaskManager.dueKey, hdi]
      have hkj : TaskManager.dueKey
          (TaskManager.get_tasks_sorted s project_id "due_date")[j] = d := by
        simp [TaskManager.dueKey, hdj, hne]
      rw [hki, hkj, hlt] at hle
      exact Bool.false_ne_true hle
    · have hij2 : i = j := le_antisymm hcon hij
      subst hij2
      rw [hdi] at hdj
      exact Option.noConfusion hdj

/-- C5 witness: the due-date placement statement and the unrecognized-key
branch instantiated on a concrete store. -/
theorem c5_get_tasks_sorted_witness :
    (0 : Nat) < 1 ∧
    TaskManager.get_tasks_sorted c5bStore 1 "created"
      = TaskManager.get_tasks_by_project c5bStore 1 := by
  have h := c5_get_tasks_sorted c5bStore 1
  refine ⟨?_, h.2.2.2.2.1 "created" (by decide)⟩
  exact h.2.2.2.2.2 1 0 (by decide) (by decide) "2020-01-01"
    (by decide) (by decide) (by decide) (by decide)

/-! ### Effect of each Manager operation on the two tables -/

theorem create_project_cases (s : Store) (n d : String) (c : Option String) :
    (TaskManager.create_project s n d c).2 = s ∨
    (pyStrip n ≠ "" ∧ (TaskManager.create_project s n d c).2.tasks = s.tasks ∧
      ∃ r : ProjectRow, r.name = pyStrip n ∧
        (TaskManager.create_project s n d c).2.projects = s.projects ++ [r]) := by
  by_cases h : pyStrip n = ""
  · left
    unfold TaskManager.create_project
    rw [if_pos h]
  · right
    refine ⟨h, ?_, ?_⟩
    · unfold TaskManager.create_project
      rw [if_neg h]
      rfl
    · unfold TaskManager.create_project
      rw [if_neg h]
      exact ⟨_, rfl, rfl⟩

theorem update_project_effect (s : Store) (pid : Int) (p : ProjectPatch) :
    (TaskManager.update_project s pid p).2.tasks = s.tasks ∧
    ((TaskManager.update_project s pid p).2.projects = s.projects ∨
      ∃ f : ProjectRow → ProjectRow, (∀ r, (f r).id = r.id) ∧
        (TaskManager.update_project s pid p).2.projects = s.projects.map f) := by
  unfold TaskManager.update_project Storage.update_project
  by_cases h : p.isEmpty = true
  · rw [if_pos h]
    exact ⟨rfl, Or.inl rfl⟩
  · rw [if_neg h]
    refine ⟨rfl, Or.inr ⟨_, ?_, rfl⟩⟩
    intro r
    by_cases hr : (r.id == pid) = true <;> simp [hr, applyProjectPatch]

theorem delete_project_effect (s : Store) (pid : Int) :
    (TaskManager.delete_project s pid).2.tasks
        = s.tasks.filter (fun t => !(t.project_id == pid)) ∧
    (TaskManager.delete_project s pid).2.projects
        = s.projects.filter (fun r => !(r.id == pid)) :=
  ⟨rfl, rfl⟩

theorem create_task_cases (s : Store) (pid : Int) (n : String) (dd : Option String)
    (pr st : String) (prog : PyNum) (asg : Option String) :
    (TaskManager.create_task s pid n dd pr st prog asg).2 = s ∨
    ((TaskManager.create_task s pid n dd pr st prog asg).2.projects = s.projects ∧
      (∃ q ∈ s.projects, q.id = pid) ∧
      ∃ row : TaskRow, row.project_id = pid ∧
        (TaskManager.create_task s pid n dd pr st prog asg).2.tasks
          = s.tasks ++ [row]) := by
  unfold TaskManager.create_task
  by_cases h1 : pyStrip n = ""
  · rw [if_pos h1]; left; rfl
  rw [if_neg h1]
  by_cases h2 : pr ∉ TaskManager.PRIORITIES
  · rw [if_pos h2]; left; rfl
  rw [if_neg h2]
  by_cases h3 : st ∉ TaskManager.STATUSES
  · rw [if_pos h3]; left; rfl
  rw [if_neg h3]
  by_cases h4 : ¬(0 ≤ prog.val ∧ prog.val ≤ 100)
  · rw [if_pos h4]; left; rfl
  rw [if_neg h4]
  cases hp : TaskManager.get_project s pid with
  | none => left; rfl
  | some q =>
    right
    refine ⟨rfl, ⟨q, ?_, ?_⟩, _, rfl, rfl⟩
    · exact List.mem_of_find?_eq_some hp
    · have := List.find?_some hp
      exact eq_of_beq this

theorem update_task_effect (s : Store) (tid : Int) (p : TaskPatch) :
    (TaskManager.update_task s tid p).2.projects = s.projects ∧
    ((TaskManager.update_task s tid p).2.tasks = s.tasks ∨
      ∃ f : TaskRow → TaskRow, (∀ t, (f t).project_id = t.project_id) ∧
        (TaskManager.update_task s tid p).2.tasks = s.tasks.map f) := by
  unfold TaskManager.update_task
  by_cases h1 : p.priority.any (fun v => decide (v ∉ TaskManager.PRIORITIES)) = true
  · rw [if_pos h1]; exact ⟨rfl, Or.inl rfl⟩
  rw [if_neg h1]
  by_cases h2 : p.status.any (fun v => decide (v ∉ TaskManager.STATUSES)) = true
  · rw [if_pos h2]; exact ⟨rfl, Or.inl rfl⟩
  rw [if_neg h2]
  by_cases h3 : p.progress.any
      (fun v => !(v.isInt && decide (0 ≤ v.val) && decide (v.val ≤ 100))) = true
  · rw [if_pos h3]; exact ⟨rfl, Or.inl rfl⟩
  rw [if_neg h3]
  show (Storage.update_task s tid p).2.projects = s.projects ∧ _
  unfold Storage.update_task
  by_cases h : p.isEmpty = true
  · rw [if_pos h]; exact ⟨rfl, Or.inl rfl⟩
  · rw [if_neg h]
    refine ⟨rfl, Or.inr ⟨_, ?_, rfl⟩⟩
    intro t
    by_cases ht : (t.id == tid) = true <;> simp [ht, applyTaskPatch]

theorem delete_task_effect (s : Store) (tid : Int) :
    (TaskManager.delete_task s tid).2.projects = s.projects ∧
    (TaskManager.delete_task s tid).2.tasks
        = s.tasks.filter (fun t => !(t.id == tid)) :=
  ⟨rfl, rfl⟩

/-- `List.lookup` only returns values paired with the key in the list. -/
theorem lookup_mem {α β : Type} [BEq α] [LawfulBEq α] {l : List (α × β)} {k : α}
    {v : β} (h : l.lookup k = some v) : (k, v) ∈ l := by
  induction l with
  | nil => simp [List.lookup] at h
  | cons e l ih =>
    rw [List.lookup] at h
    by_cases he : (k == e.1) = true
    · rw [he] at h
      cases h
      have : k = e.1 := eq_of_beq he
      rw [List.mem_cons]
      left
      cases e
      simp_all
    · rw [Bool.not_eq_true] at he
      rw [he] at h
      exact List.mem_cons_of_mem e (ih h)

theorem importProjects_effect (ps : List ProjectRow) (acc : Store × List (Int × Int)) :
    (Storage.importProjects acc ps).1.tasks = acc.1.tasks ∧
    (∃ l, (Storage.importProjects acc ps).1.projects = acc.1.projects ++ l) ∧
    (∀ e ∈ (Storage.importProjects acc ps).2, e ∈ acc.2 ∨
      ∃ r ∈ (Storage.importProjects acc ps).1.projects, r.id = e.2) := by
  induction ps generalizing acc with
  | nil => exact ⟨rfl, ⟨[], (List.append_nil _).symm⟩, fun e he => Or.inl he⟩
  | cons p ps ih =>
    have hstep : Storage.importProjects acc (p :: ps)
        = Storage.importProjects
          ((Storage.create_project acc.1 p.name p.description p.color).2,
            if p.id ≠ 0 then
              (p.id, (Storage.create_project acc.1 p.name p.description p.color).1)
                :: acc.2
            else acc.2) ps := rfl
    rw [hstep]
    set acc' := ((Storage.create_project acc.1 p.name p.description p.color).2,
      if p.id ≠ 0 then
        (p.id, (Storage.create_project acc.1 p.name p.description p.color).1) :: acc.2
      else acc.2) with hacc
    obtain ⟨iht, ⟨l, ihp⟩, ihm⟩ := ih acc'
    have hrow : acc'.1.projects = acc.1.projects ++ [(⟨acc.1.next_project_id, p.name, p.description, p.color, acc.1.clock, acc.1.clock⟩ : ProjectRow)] := rfl
    refine ⟨iht, ?_, ?_⟩
    · refine ⟨(⟨acc.1.next_project_id, p.name, p.description, p.color, acc.1.clock, acc.1.clock⟩ : ProjectRow) :: l, ?_⟩
      rw [ihp, hrow, List.append_assoc]
      rfl
    · intro e he
      rcases ihm e he with hin | hex
      · by_cases hz : p.id ≠ 0
        · rw [hacc] at hin
          simp only [if_pos hz, List.mem_cons] at hin
          rcases hin with rfl | hin
          · right
            refine ⟨(⟨acc.1.next_project_id, p.name, p.description, p.color, acc.1.clock, acc.1.clock⟩ : ProjectRow), ?_, rfl⟩
            rw [ihp, hrow]
            exact List.mem_append_left _ (List.mem_append_right _ (List.mem_singleton_self _))
          · exact Or.inl hin
        · rw [hacc] at hin
          simp only [if_neg hz] at hin
          exact Or.inl hin
      · exact Or.inr hex

theorem importTasks_effect (ts : List TaskRow) (s : Store) (idMap : List (Int × Int)) :
    (Storage.importTasks s idMap ts).projects = s.projects ∧
    ∀ t' ∈ (Storage.importTasks s idMap ts).tasks, t' ∈ s.tasks ∨
      ∃ e ∈ idMap, t'.project_id = e.2 := by
  induction ts generalizing s with
  | nil => exact ⟨rfl, fun t' ht' => Or.inl ht'⟩
  | cons t ts ih =>
    cases hl : idMap.lookup t.project_id with
    | none =>
      have hstep : Storage.importTasks s idMap (t :: ts)
          = Storage.importTasks s idMap ts := by
        show List.foldl _ _ (t :: ts) = _
        rw [List.foldl_cons]
        show List.foldl _ (match idMap.lookup t.project_id with
          | some new_pid => (Storage.create_task s new_pid t.name t.due_date t.priority
              t.status t.progress t.assignee).2
          | none => s) ts = _
        rw [hl]
        rfl
      rw [hstep]
      exact ih s
    | some nid =>
      have hstep : Storage.importTasks s idMap (t :: ts)
          = Storage.importTasks
            ((Storage.create_task s nid t.name t.due_date t.priority t.status
              t.progress t.assignee).2) idMap ts := by
        show List.foldl _ _ (t :: ts) = _
        rw [List.foldl_cons]
        show List.foldl _ (match idMap.lookup t.project_id with
          | some new_pid => (Storage.create_task s new_pid t.name t.due_date t.priority
              t.status t.progress t.assignee).2
          | none => s) ts = _
        rw [hl]
        rfl
      rw [hstep]
      set s' := (Storage.create_task s nid t.name t.due_date t.priority t.status
        t.progress t.assignee).2 with hs'
      obtain ⟨ihp, ihm⟩ := ih s'
      have hsp : s'.projects = s.projects := rfl
      refine ⟨by rw [ihp, hsp], ?_⟩
      intro t' ht'
      rcases ihm t' ht' with hin | hex
      · have hmem : t' ∈ s.tasks ++ [(⟨s.next_task_id, nid, t.name, t.due_date, t.priority, t.status, t.progress, t.assignee, s.clock, s.clock⟩ : TaskRow)] := hin
        rw [List.mem_append, List.mem_singleton] at hmem
        rcases hmem with h | rfl
        · exact Or.inl h
        · exact Or.inr ⟨(t.project_id, nid), lookup_mem hl, rfl⟩
      · exact Or.inr hex

/-! ### Preservation of the invariants by each Manager step -/

theorem refint_update_task (s : Store) (tid : Int) (p : TaskPatch)
    (hs : RefInt s) : RefInt (TaskManager.update_task s tid p).2 := by
  obtain ⟨hproj, htasks⟩ := update_task_effect s tid p
  intro t htm
  rw [hproj]
  rcases htasks with ht | ⟨f, hf, ht⟩
  · rw [ht] at htm
    exact hs t htm
  · rw [ht] at htm
    rw [List.mem_map] at htm
    obtain ⟨t0, ht0, rfl⟩ := htm
    obtain ⟨q, hq, hqid⟩ := hs t0 ht0
    exact ⟨q, hq, by rw [hf t0, hqid]⟩

theorem refint_import (s : Store) (doc : Storage.ExportDoc) (hs : RefInt s) :
    RefInt (TaskManager.import_backup s doc) := by
  intro t ht
  obtain ⟨hrt, ⟨l, hrp⟩, hrm⟩ := importProjects_effect doc.projects (s, [])
  obtain ⟨hTp, hTm⟩ := importTasks_effect doc.tasks
    (Storage.importProjects (s, []) doc.projects).1
    (Storage.importProjects (s, []) doc.projects).2
  have hdef : TaskManager.import_backup s doc
      = Storage.importTasks (Storage.importProjects (s, []) doc.projects).1
        (Storage.importProjects (s, []) doc.projects).2 doc.tasks := rfl
  rw [hdef] at ht ⊢
  rw [hTp]
  rcases hTm t ht with hin | ⟨e, he, hpe⟩
  · rw [hrt] at hin
    obtain ⟨p, hp, hpid⟩ := hs t hin
    exact ⟨p, by rw [hrp]; exact List.mem_append_left _ hp, hpid⟩
  · rcases hrm e he with h0 | ⟨r, hrmem, hrid⟩
    · exact absurd h0 (List.not_mem_nil e)
    · exact ⟨r, hrmem, by rw [hrid, hpe]⟩

theorem refint_mstep {s s' : Store} (h : MStep s s') (hs : RefInt s) : RefInt s' := by
  cases h with
  | create_project n d c =>
    rcases create_project_cases s n d c with he | ⟨-, ht, r, -, hp⟩
    · rw [he]; exact hs
    · intro t htm
      rw [ht] at htm
      obtain ⟨p, hpm, hpid⟩ := hs t htm
      exact ⟨p, by rw [hp]; exact List.mem_append_left _ hpm, hpid⟩
  | update_project pid patch =>
    obtain ⟨ht, hp⟩ := update_project_effect s pid patch
    intro t htm
    rw [ht] at htm
    obtain ⟨p, hpm, hpid⟩ := hs t htm
    rcases hp with hp | ⟨f, hf, hp⟩
    · exact ⟨p, by rw [hp]; exact hpm, hpid⟩
    · exact ⟨f p, by rw [hp]; exact List.mem_map_of_mem f hpm, by rw [hf p, hpid]⟩
  | delete_project pid =>
    obtain ⟨ht, hp⟩ := delete_project_effect s pid
    intro t htm
    rw [ht, List.mem_filter] at htm
    obtain ⟨htm, hcond⟩ := htm
    obtain ⟨p, hpm, hpid⟩ := hs t htm
    refine ⟨p, ?_, hpid⟩
    rw [hp, List.mem_filter]
    refine ⟨hpm, ?_⟩
    rw [hpid]
    exact hcond
  | create_task pid n dd pr st prog asg =>
    rcases create_task_cases s pid n dd pr st prog asg with
      he | ⟨hproj, ⟨q, hq, hqid⟩, row, hrow, htasks⟩
    · rw [he]; exact hs
    · intro t htm
      rw [htasks, List.mem_append, List.mem_singleton] at htm
      rcases htm with htm | rfl
      · obtain ⟨p, hpm, hpid⟩ := hs t htm
        exact ⟨p, by rw [hproj]; exact hpm, hpid⟩
      · exact ⟨q, by rw [hproj]; exact hq, by rw [hqid, hrow]⟩
  | update_task tid patch => exact refint_update_task s tid patch hs
  | update_task_status tid st => exact refint_update_task s tid _ hs
  | update_task_progress tid prog => exact refint_update_task s tid _ hs
  | delete_task tid =>
    obtain ⟨hproj, ht⟩ := delete_task_effect s tid
    intro t htm
    rw [ht] at htm
    obtain ⟨p, hpm, hpid⟩ := hs t (List.mem_of_mem_filter htm)
    exact ⟨p, by rw [hproj]; exact hpm, hpid⟩
  | import_backup doc => exact refint_import s doc hs

theorem namesok_mstepsafe {s s' : Store} (h : MStepSafe s s') (hs : NamesOk s) :
    NamesOk s' := by
  cases h with
  | create_project n d c =>
    rcases create_project_cases s n d c with he | ⟨hn, -, r, hr, hp⟩
    · rw [he]; exact hs
    · intro p hpm
      rw [hp, List.mem_append, List.mem_singleton] at hpm
      rcases hpm with hpm | rfl
      · exact hs p hpm
      · rw [hr]; exact hn
  | delete_project pid =>
    obtain ⟨-, hp⟩ := delete_project_effect s pid
    intro p hpm
    rw [hp] at hpm
    exact hs p (List.mem_of_mem_filter hpm)
  | create_task pid n dd pr st prog asg =>
    rcases create_task_cases s pid n dd pr st prog asg with he | ⟨hproj, -, -⟩
    · rw [he]; exact hs
    · intro p hpm
      rw [hproj] at hpm
      exact hs p hpm
  | update_task tid patch =>
    intro p hpm
    rw [(update_task_effect s tid patch).1] at hpm
    exact hs p hpm
  | update_task_status tid st =>
    intro p hpm
    unfold TaskManager.update_task_status at hpm
    rw [(update_task_effect s tid _).1] at hpm
    exact hs p hpm
  | update_task_progress tid prog =>
    intro p hpm
    unfold TaskManager.update_task_progress at hpm
    rw [(update_task_effect s tid _).1] at hpm
    exact hs p hpm
  | delete_task tid =>
    intro p hpm
    rw [(delete_task_effect s tid).1] at hpm
    exact hs p hpm

/-! ### Claim C3: referential integrity and cascade delete -/

/-- C3: in every state reachable through the Manager's public operations,
every task's `project_id` refers to an existing project; and for any id,
`delete_project` removes every task with that `project_id`, after which
`get_tasks_by_project` on that id returns the empty list. -/
theorem c3_referential_integrity (s : Store) (hs : Reachable s) :
    (∀ t ∈ s.tasks, ∃ p ∈ s.projects, p.id = t.project_id) ∧
    (∀ project_id : Int,
      (TaskManager.delete_project s project_id).2.tasks
          = s.tasks.filter (fun t => !(t.project_id == project_id)) ∧
      Storage.get_tasks_by_project (TaskManager.delete_project s project_id).2
          project_id = []) := by
  constructor
  · unfold Reachable at hs
    induction hs with
    | refl => intro t ht; exact absurd ht (List.not_mem_nil t)
    | tail h step ih => exact refint_mstep step ih
  · intro pid
    refine ⟨(delete_project_effect s pid).1, ?_⟩
    unfold Storage.get_tasks_by_project
    rw [(delete_project_effect s pid).1]
    have hnil : ∀ l : List TaskRow,
        (l.filter (fun t => !(t.project_id == pid))).filter
          (fun t => t.project_id == pid) = [] := by
      intro l
      induction l with
      | nil => rfl
      | cons a l ih =>
        by_cases h : (a.project_id == pid) = true
        · simp [List.filter_cons, h, ih]
        · simp [List.filter_cons, h, ih]
    rw [hnil]
    rfl

/-- C3 witness: instantiated on a concrete reachable store with one project
and one task. -/
theorem c3_referential_integrity_witness :
    (∀ t ∈ demoStore2.tasks, ∃ p ∈ demoStore2.projects, p.id = t.project_id) ∧
    (∀ project_id : Int,
      (TaskManager.delete_project demoStore2 project_id).2.tasks
          = demoStore2.tasks.filter (fun t => !(t.project_id == project_id)) ∧
      Storage.get_tasks_by_project
          (TaskManager.delete_project demoStore2 project_id).2 project_id = []) :=
  c3_referential_integrity demoStore2
    (Relation.ReflTransGen.tail
      (Relation.ReflTransGen.tail Relation.ReflTransGen.refl
        (MStep.create_project emptyStore "P" "" none))
      (MStep.create_task demoStore1 1 "abc" none "中" "やること" (.pint 0) none))

/-! ### Claim C2: non-empty project names -/

/-- C2 counterexample: `update_project` performs no validation, so a
reachable state can hold a project whose name is the empty string. -/
theorem c2_nonempty_project_names_counterexample :
    ∃ s : Store, Reachable s ∧ ∃ p ∈ s.projects, p.name = "" := by
  refine ⟨(TaskManager.update_project demoStore1 1 { name := some "" }).2, ?_, ?_⟩
  · exact Relation.ReflTransGen.tail
      (Relation.ReflTransGen.tail Relation.ReflTransGen.refl
        (MStep.create_project emptyStore "P" "" none))
      (MStep.update_project demoStore1 1 { name := some "" })
  · decide

/-- C2 (amended): `create_project` rejects an empty (after trimming) name
with no write, and in every state reachable through the Manager's mutating
operations other than `update_project` and `import_backup` every project's
name is non-empty; `update_project` itself can make a name empty (see the
counterexample). -/
theorem c2_nonempty_project_names :
    (∀ (s : Store) (n d : String) (c : Option String), pyStrip n = "" →
      isError (TaskManager.create_project s n d c).1 = true ∧
      (TaskManager.create_project s n d c).2 = s) ∧
    (∀ s : Store, ReachableSafe s → ∀ p ∈ s.projects, p.name ≠ "") := by
  constructor
  · intro s n d c h
    unfold TaskManager.create_project
    rw [if_pos h]
    exact ⟨rfl, rfl⟩
  · intro s hs
    unfold ReachableSafe at hs
    induction hs with
    | refl => intro p hp; exact absurd hp (List.not_mem_nil p)
    | tail h step ih => exact namesok_mstepsafe step ih

/-- C2 witness: empty-name creation is rejected on a concrete store, and the
invariant holds in a concrete reachable state. -/
theorem c2_nonempty_project_names_witness :
    (isError (TaskManager.create_project demoStore1 " " "" none).1 = true ∧
      (TaskManager.create_project demoStore1 " " "" none).2 = demoStore1) ∧
    (∀ p ∈ demoStore1.projects, p.name ≠ "") :=
  ⟨c2_nonempty_project_names.1 demoStore1 " " "" none (by decide),
    c2_nonempty_project_names.2 demoStore1
      (Relation.ReflTransGen.tail Relation.ReflTransGen.refl
        (MStepSafe.create_project emptyStore "P" "" none))⟩

/-! ### Claim C6: export / import round trip -/

/-- Re-inserting a list of task records whose original project ids all map
to `nid` appends exactly one task per record, with the same preserved
fields and `project_id = nid`. -/
theorem importTasks_fields (idMap : List (Int × Int)) (nid : Int)
    (L : List TaskRow) :
    ∀ (s0 : Store), (∀ t ∈ L, idMap.lookup t.project_id = some nid) →
    (Storage.importTasks s0 idMap L).projects = s0.projects ∧
    (Storage.importTasks s0 idMap L).tasks.map taskFields
      = s0.tasks.map taskFields ++ L.map taskFields ∧
    ∀ t' ∈ (Storage.importTasks s0 idMap L).tasks,
      t' ∈ s0.tasks ∨ t'.project_id = nid := by
  induction L with
  | nil =>
    intro s0 _
    exact ⟨rfl, (List.append_nil _).symm, fun t' ht' => Or.inl ht'⟩
  | cons t L ih =>
    intro s0 hall
    have hl : idMap.lookup t.project_id = some nid := hall t (List.mem_cons_self t L)
    have hstep : Storage.importTasks s0 idMap (t :: L)
        = Storage.importTasks (Storage.create_task s0 nid t.name t.due_date
          t.priority t.status t.progress t.assignee).2 idMap L := by
      show List.foldl _ _ (t :: L) = _
      rw [List.foldl_cons]
      show List.foldl _ (match idMap.lookup t.project_id with
        | some new_pid => (Storage.create_task s0 new_pid t.name t.due_date
            t.priority t.status t.progress t.assignee).2
        | none => s0) L = _
      rw [hl]
      rfl
    rw [hstep]
    set s1 := (Storage.create_task s0 nid t.name t.due_date t.priority t.status
      t.progress t.assignee).2 with hs1
    obtain ⟨ihp, ihf, ihm⟩ := ih s1 (fun x hx => hall x (List.mem_cons_of_mem t hx))
    have hs1p : s1.projects = s0.projects := rfl
    have hs1t : s1.tasks = s0.tasks ++ [(⟨s0.next_task_id, nid, t.name, t.due_date, t.priority, t.status, t.progress, t.assignee, s0.clock, s0.clock⟩ : TaskRow)] := rfl
    refine ⟨by rw [ihp, hs1p], ?_, ?_⟩
    · rw [ihf, hs1t, List.map_append, List.append_assoc]
      rfl
    · intro t' ht'
      rcases ihm t' ht' with hin | hpid
      · rw [hs1t, List.mem_append, List.mem_singleton] at hin
        rcases hin with h | rfl
        · exact Or.inl h
        · exact Or.inr rfl
      · exact Or.inr hpid

/-- C6: exporting a store holding one project with N tasks and importing the
document into a fresh store yields one project with identical name,
description and color, and N tasks with identical preserved fields, whose
`project_id` is remapped consistently to the new project's id. -/
theorem c6_export_import_roundtrip (s : Store) (p : ProjectRow)
    (hp : s.projects = [p]) (hpid : p.id ≠ 0)
    (htasks : ∀ t ∈ s.tasks, t.project_id = p.id) :
    ∃ q : ProjectRow,
      (Storage.importDoc emptyStore (Storage.exportDoc s)).projects = [q] ∧
      q.name = p.name ∧ q.description = p.description ∧ q.color = p.color ∧
      (Storage.importDoc emptyStore (Storage.exportDoc s)).tasks.length
          = s.tasks.length ∧
      (∀ t ∈ (Storage.importDoc emptyStore (Storage.exportDoc s)).tasks,
        t.project_id = q.id) ∧
      List.Perm
        ((Storage.importDoc emptyStore (Storage.exportDoc s)).tasks.map taskFields)
        (s.tasks.map taskFields) := by
  have hgap : Storage.get_all_projects s = [p] := by
    unfold Storage.get_all_projects
    rw [hp]
    rfl
  have hdp : (Storage.exportDoc s).projects = [p] := hgap
  have hdtasks : (Storage.exportDoc s).tasks = sortLe taskCreatedDesc s.tasks := by
    show (Storage.get_all_projects s).foldl
      (fun acc q => acc ++ Storage.get_tasks_by_project s q.id) [] = _
    rw [hgap]
    show [] ++ Storage.get_tasks_by_project s p.id = _
    rw [List.nil_append]
    unfold Storage.get_tasks_by_project
    congr 1
    apply List.filter_eq_self.mpr
    intro t ht
    exact beq_iff_eq.mpr (htasks t ht)
  have himp : Storage.importProjects (emptyStore, []) [p]
      = ((Storage.create_project emptyStore p.name p.description p.color).2,
        [(p.id, 1)]) := by
    show ((Storage.create_project emptyStore p.name p.description p.color).2,
      if p.id ≠ 0 then
        [(p.id, (Storage.create_project emptyStore p.name p.description p.color).1)]
      else []) = _
    rw [if_pos hpid]
    rfl
  have hid : Storage.importDoc emptyStore (Storage.exportDoc s)
      = Storage.importTasks
        (Storage.importProjects (emptyStore, []) (Storage.exportDoc s).projects).1
        (Storage.importProjects (emptyStore, []) (Storage.exportDoc s).projects).2
        (Storage.exportDoc s).tasks := rfl
  have hmap : ∀ t ∈ sortLe taskCreatedDesc s.tasks,
      List.lookup t.project_id [(p.id, (1 : Int))] = some 1 := by
    intro t ht
    rw [mem_sortLe] at ht
    rw [htasks t ht]
    simp [List.lookup]
  obtain ⟨hfp, hff, hfm⟩ := importTasks_fields [(p.id, 1)] 1
    (sortLe taskCreatedDesc s.tasks)
    (Storage.create_project emptyStore p.name p.description p.color).2 hmap
  have he : (Storage.create_project emptyStore p.name p.description p.color).2.tasks
      = ([] : List TaskRow) := rfl
  refine ⟨(⟨1, p.name, p.description, p.color, 0, 0⟩ : ProjectRow), ?_, rfl, rfl, rfl,
    ?_, ?_, ?_⟩
  · rw [hid, hdp, himp, hdtasks]
    show (Storage.importTasks
      (Storage.create_project emptyStore p.name p.description p.color).2
      [(p.id, 1)] (sortLe taskCreatedDesc s.tasks)).projects = _
    rw [hfp]
    rfl
  · rw [hid, hdp, himp, hdtasks]
    show (Storage.importTasks
      (Storage.create_project emptyStore p.name p.description p.color).2
      [(p.id, 1)] (sortLe taskCreatedDesc s.tasks)).tasks.length = s.tasks.length
    have h1 := congrArg List.length hff
    simp only [List.length_map, List.length_append] at h1
    rw [he] at h1
    rw [h1]
    show ([] : List TaskRow).length + (sortLe taskCreatedDesc s.tasks).length
      = s.tasks.length
    rw [List.length_nil, Nat.zero_add, length_sortLe]
  · intro t htm
    rw [hid, hdp, himp, hdtasks] at htm
    have htm2 : t ∈ (Storage.importTasks
        (Storage.create_project emptyStore p.name p.description p.color).2
        [(p.id, 1)] (sortLe taskCreatedDesc s.tasks)).tasks := htm
    rcases hfm t htm2 with h0 | hq
    · rw [he] at h0
      exact absurd h0 (List.not_mem_nil t)
    · exact hq
  · rw [hid, hdp, himp, hdtasks]
    show List.Perm ((Storage.importTasks
      (Storage.create_project emptyStore p.name p.description p.color).2
      [(p.id, 1)] (sortLe taskCreatedDesc s.tasks)).tasks.map taskFields)
      (s.tasks.map taskFields)
    rw [hff, he, List.map_nil, List.nil_append]
    exact (perm_sortLe taskCreatedDesc s.tasks).map taskFields

/-- C6 witness: the round trip instantiated on a concrete store with one
project and one task. -/
theorem c6_export_import_roundtrip_witness :
    ∃ q : ProjectRow,
      (Storage.importDoc emptyStore (Storage.exportDoc demoStore2)).projects = [q] ∧
      q.name = (⟨1, "P", "", "#3B82F6", 0, 0⟩ : ProjectRow).name ∧
      q.description = (⟨1, "P", "", "#3B82F6", 0, 0⟩ : ProjectRow).description ∧
      q.color = (⟨1, "P", "", "#3B82F6", 0, 0⟩ : ProjectRow).color ∧
      (Storage.importDoc emptyStore (Storage.exportDoc demoStore2)).tasks.length
          = demoStore2.tasks.length ∧
      (∀ t ∈ (Storage.importDoc emptyStore (Storage.exportDoc demoStore2)).tasks,
        t.project_id = q.id) ∧
      List.Perm
        ((Storage.importDoc emptyStore
          (Storage.exportDoc demoStore2)).tasks.map taskFields)
        (demoStore2.tasks.map taskFields) :=
  c6_export_import_roundtrip demoStore2 (⟨1, "P", "", "#3B82F6", 0, 0⟩ : ProjectRow)
    (by decide) (by decide) (by decide)
